import Mathlib

/-!
Verification of the core test models of `client/models/core.py`
(classes `Test`, `TestCase`, `TestCaseAnswer`).

Shallow embedding conventions:
* Python JSON-like values (including Python `None`) are the inductive `Json`;
  `Json.null` models `None`.  Python dictionaries are `Json.obj` with an
  association list of fields.
* A Python `TestCase` instance is a `CaseObj`: its data fields (`TestCase`)
  plus its class (`CaseVariant`), which provides the concrete variant's
  `serialize`/`deserialize` methods and the class-level `type` tag.  This
  models Python method dispatch on the object's class.
* Object identity of a `Test` is modelled by the field `ref : Nat`; the
  `test` back-reference of a case stores the owning Test's `ref`.
  Constructing functions take the fresh `ref` as an extra argument.
* Mutation is modelled by functional update; exceptions are modelled with
  `Except String`, where the message encodes which Python exception is
  raised (for example a `dict` lookup failure becomes `keyErr k`,
  modelling `KeyError(k)`).
-/

inductive Json where
  | null : Json
  | bool : Bool → Json
  | num : Int → Json
  | str : String → Json
  | arr : List Json → Json
  | obj : List (String × Json) → Json

/-- Python `x is None` (the `None` singleton test). -/
def Json.isNull : Json → Bool
  | .null => true
  | _ => false

/-- Python `x == s` for a string `s`: only an equal string compares equal. -/
def Json.eqStr : Json → String → Bool
  | .str s, t => s = t
  | _, _ => false

/-- Python truthiness of a JSON-like value (`bool(x)`): `None`, `False`, `0`,
`''`, `[]` and `{}` are falsy, everything else is truthy. -/
def Json.truthy : Json → Bool
  | .null => false
  | .bool b => b
  | .num n => n != 0
  | .str s => s != ""
  | .arr xs => !xs.isEmpty
  | .obj fs => !fs.isEmpty

/-- `d.get(k)` on a Python dict (returning `None`, i.e. `none`, when the key
is absent).  On a non-dict value the model returns `none`. -/
def Json.get : Json → String → Option Json
  | .obj fs, k => fs.lookup k
  | _, _ => none

mutual

/-- How Python's `str.format` renders a JSON-like value (exact for strings,
which is the only case the error messages of `core.py` hit in practice;
composite values are rendered approximately, list/dict repr without
quotes). -/
def Json.render : Json → String
  | .null => "None"
  | .bool b => if b then "True" else "False"
  | .num n => toString n
  | .str s => s
  | .arr xs => "[" ++ Json.renderList xs ++ "]"
  | .obj fs => "\x7b" ++ Json.renderFields fs ++ "\x7d"

def Json.renderList : List Json → String
  | [] => ""
  | [x] => Json.render x
  | x :: xs => Json.render x ++ ", " ++ Json.renderList xs

def Json.renderFields : List (String × Json) → String
  | [] => ""
  | [(k, v)] => k ++ ": " ++ Json.render v
  | (k, v) :: fs => k ++ ": " ++ Json.render v ++ ", " ++ Json.renderFields fs

end

/-! ### The text-normalization collaborator

Modelled from the spec: `utils.dedent` (module `utils` is not under `src/`),
"a dedent function stripping common leading whitespace from multi-line text
fields", "treated as an opaque external utility".  We model it concretely:
split on newlines, compute the longest whitespace prefix common to all
lines, and strip it from every line. -/

def isWsChar (c : Char) : Bool := c = ' ' || c = '\t'

/-- The leading-whitespace run of a line. -/
def leadWs (l : List Char) : List Char := l.takeWhile isWsChar

/-- Longest common leading run of two character lists. -/
def commonPre : List Char → List Char → List Char
  | a :: as, b :: bs => if a = b then a :: commonPre as bs else []
  | _, _ => []

/-- Split on newline characters (like Python `str.split('\n')`): always at
least one line, and `splitNl [] = [[]]`. -/
def splitNl : List Char → List (List Char)
  | [] => [[]]
  | c :: cs =>
    if c = '\n' then [] :: splitNl cs
    else
      match splitNl cs with
      | l :: ls => (c :: l) :: ls
      | [] => [[c]]

/-- Rejoin lines with newline characters (like `'\n'.join`). -/
def joinNl : List (List Char) → List Char
  | [] => []
  | [l] => l
  | l :: ls => l ++ '\n' :: joinNl ls

/-- The common whitespace margin of a list of lines. -/
def marginOf : List (List Char) → List Char
  | [] => []
  | [l] => leadWs l
  | l :: ls => commonPre (leadWs l) (marginOf ls)

def dedentL (cs : List Char) : List Char :=
  let lines := splitNl cs
  let m := marginOf lines
  joinNl (lines.map (List.drop m.length))

/-- Modelled from the spec: the external `utils.dedent` collaborator. -/
def dedent (s : String) : String := String.mk (dedentL s.toList)

/-! ### The data model of `core.py` -/

/-- `TestCaseAnswer`: one expected answer. -/
structure TestCaseAnswer where
  answer : String
  choices : List String
  explanation : String
deriving DecidableEq

/-- `TestCaseAnswer.__init__`: `choices` defaults to `[]` (`choices or []`). -/
def TestCaseAnswer.init (answer : String) (choices : Option (List String))
    (explanation : String) : TestCaseAnswer :=
  ⟨answer, choices.getD [], explanation⟩

/-- `TestCaseAnswer.is_multiple_choice`: `len(self.choices) > 0`. -/
def TestCaseAnswer.is_multiple_choice (a : TestCaseAnswer) : Bool :=
  decide (0 < a.choices.length)

/-- The data fields of a `TestCase` instance.
`test` holds the owning Test's identity (`ref`), `none` modelling Python
`None`; `suite_num = none` models the attribute not having been assigned
yet (only `Test.add_suite` assigns it).  `status_lock` is the `'lock'` key
of the open `_status` mapping (the only status key the core reads);
`payload` stands for any variant-specific extra fields. -/
structure TestCase where
  input_str : String
  outputs : List TestCaseAnswer
  test : Option Nat
  suite_num : Option Nat
  status_lock : Option Bool
  payload : Json

/-- `TestCase.__init__` (dedents the input string; `test` defaults to
`None`, and `suite_num` is not assigned by the constructor). -/
def TestCase.init (input_str : String) (outputs : List TestCaseAnswer)
    (test : Option Nat) (status_lock : Option Bool) (payload : Json) : TestCase :=
  ⟨dedent input_str, outputs, test, none, status_lock, payload⟩

/-- `TestCase.is_locked`: `self._status.get('lock', True)`. -/
def TestCase.is_locked (c : TestCase) : Bool := c.status_lock.getD true

/-- `TestCase.set_locked`. -/
def TestCase.set_locked (c : TestCase) (locked : Bool) : TestCase :=
  { c with status_lock := some locked }

/-- `TestCase.set_outputs`. -/
def TestCase.set_outputs (c : TestCase) (new_outputs : List TestCaseAnswer) :
    TestCase := { c with outputs := new_outputs }

/-- A concrete `TestCase` subclass, as registered in a case-type registry:
its class-level `type` tag and its `serialize`/`deserialize` methods.
`deser` takes the case JSON and `assignment_info`. -/
structure CaseVariant where
  type : String
  ser : TestCase → Json
  deser : Json → Json → Except String TestCase

/-- A Python `TestCase` object: its data plus its class (for method
dispatch). -/
structure CaseObj where
  data : TestCase
  cls : CaseVariant

/-- `case.serialize()`: dispatch to the object's class. -/
def CaseObj.serialize (o : CaseObj) : Json := o.cls.ser o.data

/-- The in-place mutation `test_case.test = self; test_case.suite_num = n`
performed by `Test.add_suite`. -/
def setCaseRefs (r n : Nat) (c : TestCase) : TestCase :=
  { c with test := some r, suite_num := some n }

def setObjRefs (r n : Nat) (o : CaseObj) : CaseObj :=
  { o with data := setCaseRefs r n o.data }

/-- A freshly deserialized copy of a case: same data, back-references
unset (`Test.deserialize` builds cases with no owning test; `add_suite`
establishes the links afterwards). -/
def clearRefs (c : TestCase) : TestCase :=
  { c with test := none, suite_num := none }

/-- `Test`: all suites for a single test.  `ref` models the object's
identity; `_points` stores the raw `points` constructor argument
(`Json.null` models `None`). -/
structure Test where
  ref : Nat
  names : Json
  suites : List (List CaseObj)
  _points : Json
  note : String
  cache : String

/-- `Test.__init__`: `names or []`, filter out empty suites, store `points`
raw, dedent `note` and `cache`. -/
def Test.init (ref : Nat) (names : Json) (suites : List (List CaseObj))
    (points : Json) (note : String) (cache : String) : Test :=
  { ref := ref
  , names := if names.truthy then names else Json.arr []
  , suites := suites.filter (fun s => !s.isEmpty)
  , _points := points
  , note := dedent note
  , cache := dedent cache }

/-- `Test.points` property: `len(self.suites)` when `_points is None`,
else `_points`. -/
def Test.points (t : Test) : Json :=
  if t._points.isNull then Json.num t.suites.length else t._points

/-- `Test.count_cases` property. -/
def Test.count_cases (t : Test) : Nat := (t.suites.map List.length).sum

/-- `Test.count_locked` property. -/
def Test.count_locked (t : Test) : Nat :=
  ((t.suites.map (fun s => s.map (fun o => o.data.is_locked))).flatten).count true

/-- `Test.add_suite`: if `suite` is empty do nothing; otherwise append it
and set each contained case's `test` back-reference and `suite_num`
(`len(self.suites) - 1` after the append, i.e. the old length). -/
def Test.add_suite (t : Test) (suite : List CaseObj) : Test :=
  if suite.isEmpty then t
  else
    { t with suites := t.suites ++ [suite.map (setObjRefs t.ref t.suites.length)] }

/-- `KeyError(k)` raised by a failing Python dict lookup. -/
def keyErr (k : String) : String := "KeyError: " ++ k

/-- `TestCase.assert_correct_type(case_json)` for a class whose `type` tag
is `clsType`: missing tag and mismatched tag raise `SerializationError`
with the messages of `core.py`. -/
def assert_correct_type (clsType : String) (case_json : Json) :
    Except String Unit :=
  match case_json.get "type" with
  | none => Except.error ("JSON is missing type " ++ clsType)
  | some tv =>
    if tv.eqStr clsType then Except.ok ()
    else Except.error ("JSON type " ++ tv.render ++
      " does not match TestCase type " ++ clsType)

/-- `case['type']` inside `Test.deserialize`: the case entry must be a dict
with a `'type'` key (else `TypeError`/`KeyError`); a non-string tag would
then fail the registry lookup, which we fold into the same error site. -/
def getCaseType : Json → Except String String
  | Json.obj fs =>
    match fs.lookup "type" with
    | some (Json.str s) => Except.ok s
    | some _ => Except.error (keyErr "non-string type tag")
    | none => Except.error (keyErr "type")
  | _ => Except.error "TypeError: case JSON is not a dict"

/-- The inner loop of `Test.deserialize` building one `new_suite`: for each
case entry, read its `'type'` tag, look the variant up in `case_map`
(`KeyError` when absent), and delegate to the variant's `deserialize`. -/
def deserializeSuite (case_map : List (String × CaseVariant)) (info : Json) :
    List Json → Except String (List CaseObj)
  | [] => Except.ok []
  | caseJ :: rest =>
    match getCaseType caseJ with
    | Except.error e => Except.error e
    | Except.ok ty =>
      match case_map.lookup ty with
      | none => Except.error (keyErr ty)
      | some v =>
        match v.deser caseJ info with
        | Except.error e => Except.error e
        | Except.ok d =>
          match deserializeSuite case_map info rest with
          | Except.error e => Except.error e
          | Except.ok os => Except.ok (⟨d, v⟩ :: os)

/-- The outer loop of `Test.deserialize`: each suite entry must be a list;
each completed suite is attached with `add_suite`. -/
def Test.deserializeLoop (case_map : List (String × CaseVariant)) (info : Json) :
    Test → List Json → Except String Test
  | t, [] => Except.ok t
  | t, sj :: rest =>
    match sj with
    | Json.arr cases =>
      match deserializeSuite case_map info cases with
      | Except.error e => Except.error e
      | Except.ok new_suite =>
        Test.deserializeLoop case_map info (t.add_suite new_suite) rest
    | _ => Except.error "TypeError: suite JSON is not a list"

/-- The test JSON must be a dict (else Python fails on attribute access). -/
def testFields? : Json → Except String (List (String × Json))
  | Json.obj fs => Except.ok fs
  | _ => Except.error "AttributeError: test JSON is not a dict"

/-- The `note` value handed to the constructor must be a string (else
Python's `utils.dedent` raises a `TypeError`). -/
def noteStr? : Json → Except String String
  | Json.str s => Except.ok s
  | _ => Except.error "TypeError: dedent expects a string"

/-- The `suites` value must be a list to be iterated. -/
def suitesList? : Json → Except String (List Json)
  | Json.arr l => Except.ok l
  | _ => Except.error "TypeError: suites JSON is not a list"

/-- `Test.deserialize(test_json, assignment_info, case_map)`.  The fresh
object's identity `ref` is an extra model argument.  The constructor is
called first with `names`, `points`, `note` (so a non-string `note` raises
inside `utils.dedent` before any case is read), then each JSON suite is
deserialized and attached via `add_suite`. -/
def Test.deserialize (ref : Nat) (test_json : Json) (info : Json)
    (case_map : List (String × CaseVariant)) : Except String Test :=
  match testFields? test_json with
  | Except.error e => Except.error e
  | Except.ok fields =>
    match noteStr? ((fields.lookup "note").getD (Json.str "")) with
    | Except.error e => Except.error e
    | Except.ok noteS =>
      match suitesList? ((fields.lookup "suites").getD (Json.arr [])) with
      | Except.error e => Except.error e
      | Except.ok suitesJ =>
        Test.deserializeLoop case_map info
          (Test.init ref ((fields.lookup "names").getD Json.null) []
            ((fields.lookup "points").getD Json.null) noteS "") suitesJ

/-- `Test.serialize()` as its ordered field list: `names` always; `suites`
only when `count_cases > 0`; `points` only when `_points is not None`;
`note` only when non-empty; `cache` never. -/
def Test.serializeFields (t : Test) : List (String × Json) :=
  let base := [("names", t.names)]
  let suitesJ := Json.arr (t.suites.map (fun s => Json.arr (s.map CaseObj.serialize)))
  let f1 := if 0 < t.count_cases then base ++ [("suites", suitesJ)] else base
  let f2 := if t._points.isNull then f1 else f1 ++ [("points", t._points)]
  if t.note ≠ "" then f2 ++ [("note", Json.str t.note)] else f2

def Test.serialize (t : Test) : Json := Json.obj t.serializeFields

/-- `big` contains `small` as a substring. -/
def containsStr (big small : String) : Prop := ∃ a b, big = a ++ small ++ b

/-! ### Properties of the dedent model -/

theorem splitNl_ne_nil (cs : List Char) : splitNl cs ≠ [] := by
  induction cs with
  | nil => simp [splitNl]
  | cons c cs ih =>
    by_cases hc : c = '\n'
    · simp [splitNl, hc]
    · cases h : splitNl cs with
      | nil => exact absurd h ih
      | cons l ls => simp [splitNl, hc, h]

theorem splitNl_no_nl (l : List Char) (h : '\n' ∉ l) : splitNl l = [l] := by
  induction l with
  | nil => rfl
  | cons c cs ih =>
    have hc : c ≠ '\n' := fun e => h (e ▸ List.mem_cons_self c cs)
    have h2 : splitNl cs = [cs] := ih (fun m => h (List.mem_cons_of_mem c m))
    simp [splitNl, hc, h2]

theorem splitNl_append (l rest : List Char) (h : '\n' ∉ l) :
    splitNl (l ++ '\n' :: rest) = l :: splitNl rest := by
  induction l with
  | nil => simp [splitNl]
  | cons c cs ih =>
    have hc : c ≠ '\n' := fun e => h (e ▸ List.mem_cons_self c cs)
    have ih2 := ih (fun m => h (List.mem_cons_of_mem c m))
    simp [splitNl, hc, ih2]

theorem splitNl_joinNl (ls : List (List Char)) (hne : ls ≠ [])
    (h : ∀ l ∈ ls, '\n' ∉ l) : splitNl (joinNl ls) = ls := by
  induction ls with
  | nil => exact absurd rfl hne
  | cons l ls ih =>
    cases ls with
    | nil =>
      have : joinNl [l] = l := rfl
      rw [this]
      exact splitNl_no_nl l (h l (List.mem_cons_self l []))
    | cons l2 ls2 =>
      have h1 : '\n' ∉ l := h l (List.mem_cons_self l _)
      have hj : joinNl (l :: l2 :: ls2) = l ++ '\n' :: joinNl (l2 :: ls2) := rfl
      rw [hj, splitNl_append l _ h1,
        ih (by simp) (fun x hx => h x (List.mem_cons_of_mem l hx))]

theorem splitNl_mem_no_nl (cs : List Char) : ∀ l ∈ splitNl cs, '\n' ∉ l := by
  induction cs with
  | nil =>
    intro l hl
    simp [splitNl] at hl
    subst hl; simp
  | cons c cs ih =>
    intro l hl
    by_cases hc : c = '\n'
    · simp [splitNl, hc] at hl
      rcases hl with h | h
      · subst h; simp
      · exact ih l h
    · cases hsp : splitNl cs with
      | nil => exact absurd hsp (splitNl_ne_nil cs)
      | cons l1 ls1 =>
        simp [splitNl, hc, hsp] at hl
        rcases hl with h | h
        · subst h
          intro hm
          rcases List.mem_cons.mp hm with e | e
          · exact hc e.symm
          · exact ih l1 (by simp [hsp]) e
        · exact ih l (by simp [hsp, h])

theorem commonPre_length_left (a : List Char) :
    ∀ b, (commonPre a b).length ≤ a.length := by
  induction a with
  | nil => intro b; cases b <;> simp [commonPre]
  | cons x xs ih =>
    intro b
    cases b with
    | nil => simp [commonPre]
    | cons y ys =>
      by_cases h : x = y
      · simpa [commonPre, h] using ih ys
      · simp [commonPre, h]

theorem commonPre_length_right (a : List Char) :
    ∀ b, (commonPre a b).length ≤ b.length := by
  induction a with
  | nil => intro b; cases b <;> simp [commonPre]
  | cons x xs ih =>
    intro b
    cases b with
    | nil => simp [commonPre]
    | cons y ys =>
      by_cases h : x = y
      · simpa [commonPre, h] using ih ys
      · simp [commonPre, h]

theorem commonPre_drop : ∀ (k : Nat) (a b : List Char),
    k ≤ (commonPre a b).length →
    commonPre (a.drop k) (b.drop k) = (commonPre a b).drop k := by
  intro k
  induction k with
  | zero => intro a b _; simp
  | succ k ih =>
    intro a b hk
    cases a with
    | nil => simp [commonPre] at hk
    | cons x xs =>
      cases b with
      | nil => simp [commonPre] at hk
      | cons y ys =>
        by_cases h : x = y
        · simp only [commonPre, if_pos h, List.length_cons] at hk
          simp only [commonPre, if_pos h, List.drop_succ_cons]
          exact ih xs ys (by omega)
        · simp [commonPre, h] at hk

theorem takeWhile_drop (p : Char → Bool) :
    ∀ (k : Nat) (l : List Char), k ≤ (l.takeWhile p).length →
    (l.drop k).takeWhile p = (l.takeWhile p).drop k := by
  intro k
  induction k with
  | zero => intro l _; simp
  | succ k ih =>
    intro l hk
    cases l with
    | nil => simp at hk
    | cons c cs =>
      by_cases hp : p c
      · simp only [List.takeWhile_cons, hp, if_pos, List.length_cons] at hk
        simp only [List.drop_succ_cons, List.takeWhile_cons, hp, if_pos]
        exact ih cs (by omega)
      · simp [List.takeWhile_cons, hp] at hk

theorem marginOf_length_le : ∀ (lines : List (List Char)) (l : List Char),
    l ∈ lines → (marginOf lines).length ≤ (leadWs l).length := by
  intro lines
  induction lines with
  | nil => intro l h; simp at h
  | cons a ls ih =>
    intro l hl
    cases ls with
    | nil =>
      have : l = a := by simpa using hl
      subst this
      simp [marginOf]
    | cons b ls2 =>
      rcases List.mem_cons.mp hl with h | h
      · subst h
        exact commonPre_length_left _ _
      · exact le_trans (commonPre_length_right _ _) (ih l h)

theorem marginOf_map_drop : ∀ (lines : List (List Char)) (k : Nat),
    k ≤ (marginOf lines).length →
    marginOf (lines.map (List.drop k)) = (marginOf lines).drop k := by
  intro lines
  induction lines with
  | nil => intro k hk; simp [marginOf] at hk ⊢
  | cons a ls ih =>
    intro k hk
    cases ls with
    | nil =>
      simp only [marginOf, List.map_cons, List.map_nil] at hk ⊢
      exact takeWhile_drop isWsChar k a hk
    | cons b ls2 =>
      have hmeq : marginOf (a :: b :: ls2) =
          commonPre (leadWs a) (marginOf (b :: ls2)) := rfl
      rw [hmeq] at hk
      have hk2 : k ≤ (marginOf (b :: ls2)).length :=
        le_trans hk (commonPre_length_right _ _)
      have hka : k ≤ (leadWs a).length :=
        le_trans hk (commonPre_length_left _ _)
      have h1 : leadWs (a.drop k) = (leadWs a).drop k :=
        takeWhile_drop isWsChar k a hka
      have h2 := ih k hk2
      calc marginOf ((a :: b :: ls2).map (List.drop k))
          = commonPre (leadWs (a.drop k))
              (marginOf ((b :: ls2).map (List.drop k))) := rfl
        _ = commonPre ((leadWs a).drop k) ((marginOf (b :: ls2)).drop k) := by
              rw [h1, h2]
        _ = (commonPre (leadWs a) (marginOf (b :: ls2))).drop k :=
              commonPre_drop k _ _ hk
        _ = (marginOf (a :: b :: ls2)).drop k := rfl

theorem dedentL_idem (cs : List Char) : dedentL (dedentL cs) = dedentL cs := by
  have hnn : splitNl cs ≠ [] := splitNl_ne_nil cs
  have hno : ∀ l ∈ splitNl cs, '\n' ∉ l := splitNl_mem_no_nl cs
  have hd1 : dedentL cs =
      joinNl ((splitNl cs).map (List.drop (marginOf (splitNl cs)).length)) := rfl
  have hno2 : ∀ l ∈ (splitNl cs).map
      (List.drop (marginOf (splitNl cs)).length), '\n' ∉ l := by
    intro l hl
    rcases List.mem_map.mp hl with ⟨l0, hl0, rfl⟩
    intro hnl
    exact hno l0 hl0 (List.drop_subset _ _ hnl)
  have hnn2 : (splitNl cs).map (List.drop (marginOf (splitNl cs)).length) ≠ [] := by
    intro h
    exact hnn (List.map_eq_nil_iff.mp h)
  have hsplit := splitNl_joinNl _ hnn2 hno2
  have hm : marginOf ((splitNl cs).map
      (List.drop (marginOf (splitNl cs)).length)) = [] := by
    rw [marginOf_map_drop (splitNl cs) (marginOf (splitNl cs)).length (le_refl _)]
    exact List.drop_length _
  rw [hd1]
  show joinNl ((splitNl (joinNl ((splitNl cs).map
      (List.drop (marginOf (splitNl cs)).length)))).map
      (List.drop (marginOf (splitNl (joinNl ((splitNl cs).map
      (List.drop (marginOf (splitNl cs)).length))))).length)) = _
  rw [hsplit, hm]
  have hid : ∀ L : List (List Char), L.map (List.drop ([] : List Char).length) = L := by
    intro L
    induction L with
    | nil => rfl
    | cons a t ih => simpa using ih
  rw [hid]

theorem dedent_idem (s : String) : dedent (dedent s) = dedent s := by
  show String.mk (dedentL (String.mk (dedentL s.toList)).toList) = _
  have : (String.mk (dedentL s.toList)).toList = dedentL s.toList := rfl
  rw [this, dedentL_idem]
  rfl

theorem dedent_empty : dedent "" = "" := rfl

/-! ### Simple projection lemmas for the model -/

@[simp] theorem init_ref (ref : Nat) (names : Json) (suites : List (List CaseObj))
    (points : Json) (note cache : String) :
    (Test.init ref names suites points note cache).ref = ref := rfl

@[simp] theorem init_names (ref : Nat) (names : Json) (suites : List (List CaseObj))
    (points : Json) (note cache : String) :
    (Test.init ref names suites points note cache).names =
      (if names.truthy then names else Json.arr []) := rfl

@[simp] theorem init_suites (ref : Nat) (names : Json) (suites : List (List CaseObj))
    (points : Json) (note cache : String) :
    (Test.init ref names suites points note cache).suites =
      suites.filter (fun s => !s.isEmpty) := rfl

@[simp] theorem init_points_raw (ref : Nat) (names : Json)
    (suites : List (List CaseObj)) (points : Json) (note cache : String) :
    (Test.init ref names suites points note cache)._points = points := rfl

@[simp] theorem init_note (ref : Nat) (names : Json) (suites : List (List CaseObj))
    (points : Json) (note cache : String) :
    (Test.init ref names suites points note cache).note = dedent note := rfl

@[simp] theorem init_cache (ref : Nat) (names : Json) (suites : List (List CaseObj))
    (points : Json) (note cache : String) :
    (Test.init ref names suites points note cache).cache = dedent cache := rfl

theorem add_suite_of_isEmpty (t : Test) (s : List CaseObj) (h : s.isEmpty = true) :
    t.add_suite s = t := by
  simp [Test.add_suite, h]

theorem add_suite_of_ne (t : Test) (s : List CaseObj) (h : s.isEmpty = false) :
    t.add_suite s =
      { t with suites := t.suites ++ [s.map (setObjRefs t.ref t.suites.length)] } := by
  simp [Test.add_suite, h]

theorem add_suite_ref (t : Test) (s : List CaseObj) : (t.add_suite s).ref = t.ref := by
  unfold Test.add_suite
  split <;> rfl

theorem add_suite_names (t : Test) (s : List CaseObj) :
    (t.add_suite s).names = t.names := by
  unfold Test.add_suite
  split <;> rfl

theorem add_suite_points_raw (t : Test) (s : List CaseObj) :
    (t.add_suite s)._points = t._points := by
  unfold Test.add_suite
  split <;> rfl

theorem add_suite_note (t : Test) (s : List CaseObj) :
    (t.add_suite s).note = t.note := by
  unfold Test.add_suite
  split <;> rfl

theorem add_suite_cache (t : Test) (s : List CaseObj) :
    (t.add_suite s).cache = t.cache := by
  unfold Test.add_suite
  split <;> rfl

/-! ### Shared concrete sample objects (used by witnesses) -/

/-- A trivial concrete `TestCase` subclass used in concrete instantiations. -/
def nullVariant : CaseVariant :=
  ⟨"sample", fun _ => Json.null, fun _ _ => Except.error "NotImplementedError"⟩

def sampleCase : TestCase := ⟨"x", [], none, none, none, Json.null⟩

def sampleObj : CaseObj := ⟨sampleCase, nullVariant⟩

def sampleT : Test := Test.init 0 Json.null [] Json.null "" ""

/-! ### C5: behaviour of `add_suite` -/

/-- C5: for every Test and suite `s`: if `s` is empty, `add_suite s` is a
no-op; if `s` is non-empty, it appends `s` (whose cases get mutated in
place) to `suites`, and every contained case's `test` back-reference is set
to the Test and its `suite_num` to the 0-based index of the new suite
(`t.suites.length`, the position at which it was appended). -/
theorem add_suite_spec (t : Test) (s : List CaseObj) :
    (s.isEmpty = true → t.add_suite s = t) ∧
    (s.isEmpty = false →
      (t.add_suite s).suites =
        t.suites ++ [s.map (setObjRefs t.ref t.suites.length)] ∧
      (t.add_suite s).suites[t.suites.length]? =
        some (s.map (setObjRefs t.ref t.suites.length)) ∧
      ∀ o ∈ s.map (setObjRefs t.ref t.suites.length),
        o.data.test = some t.ref ∧ o.data.suite_num = some t.suites.length) := by
  constructor
  · exact add_suite_of_isEmpty t s
  · intro h
    refine ⟨?_, ?_, ?_⟩
    · rw [add_suite_of_ne t s h]
    · rw [add_suite_of_ne t s h]
      exact List.getElem?_concat_length _ _
    · intro o ho
      rcases List.mem_map.mp ho with ⟨o0, _, rfl⟩
      exact ⟨rfl, rfl⟩

theorem add_suite_spec_witness :
    (sampleT.add_suite [] = sampleT) ∧
    ((sampleT.add_suite [sampleObj]).suites =
      sampleT.suites ++ [[sampleObj].map (setObjRefs sampleT.ref sampleT.suites.length)]) :=
  ⟨(add_suite_spec sampleT []).1 rfl, ((add_suite_spec sampleT [sampleObj]).2 rfl).1⟩

/-! ### C10: `add_suite` only grows `suites` -/

/-- C10: for a non-empty suite `s`, `add_suite s` changes only `suites` (by
appending exactly one element, the mutated copy of `s`); the identity,
`names`, explicit points value, `note` and `cache` fields are unchanged,
and every previously present suite (with its cases) is unchanged. -/
theorem add_suite_frame (t : Test) (s : List CaseObj) (h : s.isEmpty = false) :
    (t.add_suite s).ref = t.ref ∧
    (t.add_suite s).names = t.names ∧
    (t.add_suite s)._points = t._points ∧
    (t.add_suite s).note = t.note ∧
    (t.add_suite s).cache = t.cache ∧
    (t.add_suite s).suites.length = t.suites.length + 1 ∧
    (t.add_suite s).suites.take t.suites.length = t.suites ∧
    (t.add_suite s).suites = t.suites ++ [s.map (setObjRefs t.ref t.suites.length)] := by
  rw [add_suite_of_ne t s h]
  refine ⟨rfl, rfl, rfl, rfl, rfl, ?_, ?_, rfl⟩
  · simp
  · exact List.take_left _ _

theorem add_suite_frame_witness :
    (sampleT.add_suite [sampleObj]).cache = sampleT.cache ∧
    (sampleT.add_suite [sampleObj]).suites.take sampleT.suites.length =
      sampleT.suites :=
  ⟨(add_suite_frame sampleT [sampleObj] rfl).2.2.2.2.1,
   (add_suite_frame sampleT [sampleObj] rfl).2.2.2.2.2.2.1⟩

/-! ### C4: empty suites are filtered at construction -/

theorem length_filter_not_isEmpty (L : List (List CaseObj)) :
    (L.filter (fun s => !s.isEmpty)).length
      = L.length - (L.filter (fun s => s.isEmpty)).length := by
  induction L with
  | nil => rfl
  | cons a t ih =>
    have hle : (t.filter (fun s => s.isEmpty)).length ≤ t.length :=
      List.length_filter_le _ _
    by_cases h : a.isEmpty
    · simp [List.filter_cons, h, ih]
    · have h' : (!a.isEmpty) = true := by simp [h]
      simp [List.filter_cons, h, h', ih]
      omega

/-- C4: the constructor drops every empty suite from the supplied list
(keeping the order of the rest, the resulting length being the input
length minus the number of empty suites), and `suites` never contains an
empty suite afterwards (`add_suite` preserves this). -/
theorem init_filters_empty_suites (ref : Nat) (names : Json)
    (suites : List (List CaseObj)) (points : Json) (note cache : String) :
    (Test.init ref names suites points note cache).suites
        = suites.filter (fun s => !s.isEmpty) ∧
    (Test.init ref names suites points note cache).suites.length
        = suites.length - (suites.filter (fun s => s.isEmpty)).length ∧
    (∀ s ∈ (Test.init ref names suites points note cache).suites, s ≠ []) ∧
    (∀ (t : Test) (s : List CaseObj),
      (∀ u ∈ t.suites, u ≠ []) → ∀ u ∈ (t.add_suite s).suites, u ≠ []) := by
  refine ⟨rfl, ?_, ?_, ?_⟩
  · rw [init_suites]
    exact length_filter_not_isEmpty suites
  · intro s hs
    rw [init_suites] at hs
    have := List.of_mem_filter hs
    simpa using this
  · intro t s hInv u hu
    rcases he : s.isEmpty with _ | _
    · rw [add_suite_of_ne t s he] at hu
      rcases List.mem_append.mp hu with h | h
      · exact hInv u h
      · have hu2 : u = s.map (setObjRefs t.ref t.suites.length) := by simpa using h
        subst hu2
        intro hmapnil
        rw [List.map_eq_nil_iff] at hmapnil
        subst hmapnil
        simp at he
    · rw [add_suite_of_isEmpty t s he] at hu
      exact hInv u hu

theorem init_filters_empty_suites_witness :
    (Test.init 0 Json.null [[], [sampleObj]] Json.null "" "").suites
        = [[], [sampleObj]].filter (fun s => !s.isEmpty) ∧
    (Test.init 0 Json.null [[], [sampleObj]] Json.null "" "").suites.length
        = ([[], [sampleObj]] : List (List CaseObj)).length -
          ([[], [sampleObj]].filter (fun s : List CaseObj => s.isEmpty)).length :=
  ⟨(init_filters_empty_suites 0 Json.null [[], [sampleObj]] Json.null "" "").1,
   (init_filters_empty_suites 0 Json.null [[], [sampleObj]] Json.null "" "").2.1⟩

/-! ### C8: the `points` property -/

/-- C8: without an explicit points value (`None`), `points` is the number
of suites; with an explicit value (including 0), `points` is that value. -/
theorem points_property_spec (ref : Nat) (names : Json)
    (suites : List (List CaseObj)) (points : Json) (note cache : String) :
    (points = Json.null →
      (Test.init ref names suites points note cache).points =
        Json.num (Test.init ref names suites points note cache).suites.length) ∧
    (points.isNull = false →
      (Test.init ref names suites points note cache).points = points) := by
  constructor
  · rintro rfl
    simp [Test.points, Json.isNull]
  · intro h
    simp [Test.points, h]

theorem points_property_spec_witness :
    ((Test.init 0 Json.null [[sampleObj], [sampleObj]] Json.null "" "").points =
      Json.num 2) ∧
    ((Test.init 0 Json.null [[sampleObj], [sampleObj]] (Json.num 0) "" "").points =
      Json.num 0) :=
  ⟨(points_property_spec 0 Json.null [[sampleObj], [sampleObj]] Json.null "" "").1 rfl,
   (points_property_spec 0 Json.null [[sampleObj], [sampleObj]] (Json.num 0) "" "").2 rfl⟩

/-! ### C3: shape of `Test.serialize` output -/

/-- C3: `serialize` always emits `names`; emits `suites` (the nested lists
of each case's own `serialize()` output) iff `count_cases > 0`; emits
`points` iff an explicit value was set at construction (`_points` is not
`None`); emits `note` iff it is non-empty; never emits `cache`. -/
theorem serialize_output_shape (t : Test) :
    "names" ∈ t.serializeFields.map Prod.fst ∧
    ("suites" ∈ t.serializeFields.map Prod.fst ↔ 0 < t.count_cases) ∧
    (0 < t.count_cases →
      t.serializeFields.lookup "suites" =
        some (Json.arr (t.suites.map (fun s => Json.arr (s.map CaseObj.serialize))))) ∧
    ("points" ∈ t.serializeFields.map Prod.fst ↔ t._points.isNull = false) ∧
    ("note" ∈ t.serializeFields.map Prod.fst ↔ t.note ≠ "") ∧
    "cache" ∉ t.serializeFields.map Prod.fst := by
  unfold Test.serializeFields
  by_cases h1 : 0 < t.count_cases <;> by_cases h2 : t._points.isNull <;>
    by_cases h3 : t.note = "" <;>
    simp [h1, h2, h3, List.lookup]

theorem serialize_output_shape_witness :
    (0 < (Test.init 0 Json.null [[sampleObj]] (Json.num 5) "n" "").count_cases) ∧
    ((Test.init 0 Json.null [[sampleObj]] (Json.num 5) "n" "").serializeFields.lookup
        "suites" =
      some (Json.arr ((Test.init 0 Json.null [[sampleObj]] (Json.num 5) "n" "").suites.map
        (fun s => Json.arr (s.map CaseObj.serialize))))) :=
  ⟨by decide,
   (serialize_output_shape (Test.init 0 Json.null [[sampleObj]] (Json.num 5) "n" "")).2.2.1
     (by decide)⟩

/-! ### C6: `assert_correct_type` -/

/-- C6: for a class with tag `clsType`: a missing `'type'` key raises a
serialization error whose message contains the expected tag; a present but
different value raises an error whose message contains both the found
value and the expected tag; an equal string tag passes. -/
theorem assert_correct_type_spec (clsType : String) (fields : List (String × Json)) :
    (fields.lookup "type" = none →
      assert_correct_type clsType (Json.obj fields) =
        Except.error ("JSON is missing type " ++ clsType) ∧
      containsStr ("JSON is missing type " ++ clsType) clsType) ∧
    (∀ v, fields.lookup "type" = some v → v.eqStr clsType = false →
      assert_correct_type clsType (Json.obj fields) =
        Except.error ("JSON type " ++ v.render ++
          " does not match TestCase type " ++ clsType) ∧
      containsStr ("JSON type " ++ v.render ++
          " does not match TestCase type " ++ clsType) (v.render) ∧
      containsStr ("JSON type " ++ v.render ++
          " does not match TestCase type " ++ clsType) clsType) ∧
    (fields.lookup "type" = some (Json.str clsType) →
      assert_correct_type clsType (Json.obj fields) = Except.ok ()) := by
  refine ⟨?_, ?_, ?_⟩
  · intro h
    constructor
    · simp [assert_correct_type, Json.get, h]
    · exact ⟨"JSON is missing type ", "", by simp⟩
  · intro v hv hne
    refine ⟨?_, ?_, ?_⟩
    · simp [assert_correct_type, Json.get, hv, hne]
    · exact ⟨"JSON type ", " does not match TestCase type " ++ clsType, by
        simp [String.append_assoc]⟩
    · exact ⟨"JSON type " ++ v.render ++ " does not match TestCase type ", "", by
        simp [String.append_assoc]⟩
  · intro h
    simp [assert_correct_type, Json.get, h, Json.eqStr]

theorem assert_correct_type_spec_witness :
    (([(("type" : String), Json.str "concept")].lookup "type" =
        some (Json.str "concept")) ∧
      (Json.str "concept").eqStr "code" = false) ∧
    (assert_correct_type "code" (Json.obj [("type", Json.str "concept")]) =
        Except.error ("JSON type " ++ (Json.str "concept").render ++
          " does not match TestCase type " ++ "code") ∧
      containsStr ("JSON type " ++ (Json.str "concept").render ++
          " does not match TestCase type " ++ "code") ((Json.str "concept").render) ∧
      containsStr ("JSON type " ++ (Json.str "concept").render ++
          " does not match TestCase type " ++ "code") "code") ∧
    (assert_correct_type "concept" (Json.obj [("type", Json.str "concept")]) =
      Except.ok ()) :=
  ⟨⟨rfl, by decide⟩,
   (assert_correct_type_spec "code" [("type", Json.str "concept")]).2.1
     (Json.str "concept") rfl (by decide),
   (assert_correct_type_spec "concept" [("type", Json.str "concept")]).2.2
     rfl⟩

/-! ### C1: the back-reference invariant -/

/-- The invariant asserted by the spec: every case reachable from `suites`
points back at the owning Test and records its suite's 0-based index. -/
def TestInv (t : Test) : Prop :=
  ∀ (i : Nat) (s : List CaseObj), t.suites[i]? = some s →
    ∀ o ∈ s, o.data.test = some t.ref ∧ o.data.suite_num = some i

theorem add_suite_TestInv (t : Test) (s : List CaseObj) (h : TestInv t) :
    TestInv (t.add_suite s) := by
  rcases he : s.isEmpty with _ | _
  · have hsu : (t.add_suite s).suites
        = t.suites ++ [s.map (setObjRefs t.ref t.suites.length)] := by
      rw [add_suite_of_ne t s he]
    have href : (t.add_suite s).ref = t.ref := add_suite_ref t s
    unfold TestInv at h ⊢
    rw [hsu, href]
    intro i s2 hget o ho
    by_cases hi : i < t.suites.length
    · rw [List.getElem?_append_left hi] at hget
      exact h i s2 hget o ho
    · have hge : t.suites.length ≤ i := Nat.le_of_not_lt hi
      rw [List.getElem?_append_right hge] at hget
      rcases hk : i - t.suites.length with _ | k
      · rw [hk] at hget
        simp only [List.getElem?_cons_zero, Option.some.injEq] at hget
        subst hget
        rcases List.mem_map.mp ho with ⟨o0, _, rfl⟩
        have hieq : i = t.suites.length := by omega
        exact ⟨rfl, by rw [hieq]; rfl⟩
      · rw [hk] at hget
        simp at hget
  · rw [add_suite_of_isEmpty t s he]
    exact h

theorem deserializeLoop_TestInv (cm : List (String × CaseVariant)) (info : Json) :
    ∀ (sjs : List Json) (t0 t : Test), TestInv t0 →
      Test.deserializeLoop cm info t0 sjs = Except.ok t → TestInv t := by
  intro sjs
  induction sjs with
  | nil =>
    intro t0 t h0 hl
    simp only [Test.deserializeLoop, Except.ok.injEq] at hl
    subst hl
    exact h0
  | cons sj rest ih =>
    intro t0 t h0 hl
    cases sj with
    | arr cases2 =>
      cases hds : deserializeSuite cm info cases2 with
      | error e => simp [Test.deserializeLoop, hds] at hl
      | ok ns =>
        simp only [Test.deserializeLoop, hds] at hl
        exact ih _ t (add_suite_TestInv t0 ns h0) hl
    | null => simp [Test.deserializeLoop] at hl
    | bool b => simp [Test.deserializeLoop] at hl
    | num n => simp [Test.deserializeLoop] at hl
    | str s => simp [Test.deserializeLoop] at hl
    | obj fs => simp [Test.deserializeLoop] at hl

theorem deserialize_TestInv (ref : Nat) (tj info : Json)
    (cm : List (String × CaseVariant)) (t : Test)
    (h : Test.deserialize ref tj info cm = Except.ok t) : TestInv t := by
  unfold Test.deserialize at h
  cases hf : testFields? tj with
  | error e => simp [hf] at h
  | ok fields =>
    simp only [hf] at h
    cases hn : noteStr? ((fields.lookup "note").getD (Json.str "")) with
    | error e => simp [hn] at h
    | ok noteS =>
      simp only [hn] at h
      cases hs : suitesList? ((fields.lookup "suites").getD (Json.arr [])) with
      | error e => simp [hs] at h
      | ok suitesJ =>
        simp only [hs] at h
        refine deserializeLoop_TestInv cm info suitesJ _ t ?_ h
        unfold TestInv
        intro i s hget o ho
        rw [init_suites] at hget
        simp at hget

/-- C1 is refuted on the constructor path: a Test built with a suite passed
directly to the constructor keeps that suite, but its cases' `test`
back-reference is not set to the Test (here it is still `None`). -/
theorem constructor_leaves_backrefs_unset :
    ∃ s, s ∈ (Test.init 7 Json.null [[sampleObj]] Json.null "" "").suites ∧
      ∃ o, o ∈ s ∧
        o.data.test ≠ some (Test.init 7 Json.null [[sampleObj]] Json.null "" "").ref := by
  refine ⟨[sampleObj], ?_, sampleObj, ?_, ?_⟩
  · have hsu : (Test.init 7 Json.null [[sampleObj]] Json.null "" "").suites
        = [[sampleObj]] := rfl
    rw [hsu]
    exact List.mem_singleton.mpr rfl
  · exact List.mem_singleton.mpr rfl
  · have hnone : sampleObj.data.test = none := rfl
    rw [hnone, init_ref]
    simp

/-- C1 (amended): the back-reference invariant is established/preserved by
`add_suite` (hence holds for every Test assembled exclusively through
`add_suite`, in particular for every Test returned by `deserialize`), but
the constructor does not set back-references on directly supplied suites. -/
theorem backref_invariant_amended :
    (∀ (t : Test) (s : List CaseObj), TestInv t → TestInv (t.add_suite s)) ∧
    (∀ (ref : Nat) (tj info : Json) (cm : List (String × CaseVariant)) (t : Test),
      Test.deserialize ref tj info cm = Except.ok t → TestInv t) :=
  ⟨add_suite_TestInv, deserialize_TestInv⟩

theorem backref_invariant_amended_witness :
    TestInv (sampleT.add_suite [sampleObj]) ∧
    TestInv (Test.init 0 Json.null [] Json.null "" "") := by
  have h0 : TestInv sampleT := by
    unfold TestInv
    intro i s hget o ho
    simp [sampleT] at hget
  refine ⟨backref_invariant_amended.1 sampleT [sampleObj] h0, ?_⟩
  exact backref_invariant_amended.2 0 (Json.obj []) Json.null [] _ rfl

/-! ### C9: `deserialize` never populates `cache` -/

theorem deserializeLoop_cache (cm : List (String × CaseVariant)) (info : Json) :
    ∀ (sjs : List Json) (t0 t : Test),
      Test.deserializeLoop cm info t0 sjs = Except.ok t → t.cache = t0.cache := by
  intro sjs
  induction sjs with
  | nil =>
    intro t0 t hl
    simp only [Test.deserializeLoop, Except.ok.injEq] at hl
    subst hl
    rfl
  | cons sj rest ih =>
    intro t0 t hl
    cases sj with
    | arr cases2 =>
      cases hds : deserializeSuite cm info cases2 with
      | error e => simp [Test.deserializeLoop, hds] at hl
      | ok ns =>
        simp only [Test.deserializeLoop, hds] at hl
        rw [ih _ t hl]
        exact add_suite_cache t0 ns
    | null => simp [Test.deserializeLoop] at hl
    | bool b => simp [Test.deserializeLoop] at hl
    | num n => simp [Test.deserializeLoop] at hl
    | str s => simp [Test.deserializeLoop] at hl
    | obj fs => simp [Test.deserializeLoop] at hl

/-- C9: a deserialized Test always has an empty `cache`: `deserialize`
never reads a `cache` key and passes no cache argument to the constructor,
so the field never survives a serialize/deserialize cycle. -/
theorem deserialize_cache_empty (ref : Nat) (tj info : Json)
    (cm : List (String × CaseVariant)) (t : Test)
    (h : Test.deserialize ref tj info cm = Except.ok t) : t.cache = "" := by
  unfold Test.deserialize at h
  cases hf : testFields? tj with
  | error e => simp [hf] at h
  | ok fields =>
    simp only [hf] at h
    cases hn : noteStr? ((fields.lookup "note").getD (Json.str "")) with
    | error e => simp [hn] at h
    | ok noteS =>
      simp only [hn] at h
      cases hs : suitesList? ((fields.lookup "suites").getD (Json.arr [])) with
      | error e => simp [hs] at h
      | ok suitesJ =>
        simp only [hs] at h
        rw [deserializeLoop_cache cm info suitesJ _ t h]
        exact dedent_empty

theorem deserialize_cache_empty_witness :
    Test.deserialize 0 (Json.obj [("cache", Json.str "zz")]) Json.null [] =
      Except.ok (Test.init 0 Json.null [] Json.null "" "") ∧
    (Test.init 0 Json.null [] Json.null "" "").cache = "" :=
  ⟨rfl, deserialize_cache_empty 0 (Json.obj [("cache", Json.str "zz")])
    Json.null [] _ rfl⟩

/-! ### C7: unknown type tags make `deserialize` fail -/

theorem deserializeSuite_ok_resolves (cm : List (String × CaseVariant)) (info : Json) :
    ∀ (cases2 : List Json) (os : List CaseObj),
      deserializeSuite cm info cases2 = Except.ok os →
      ∀ cj ∈ cases2, ∃ ty v, getCaseType cj = Except.ok ty ∧ cm.lookup ty = some v := by
  intro cases2
  induction cases2 with
  | nil =>
    intro os h cj hcj
    simp at hcj
  | cons cj0 rest ih =>
    intro os h cj hcj
    cases hty : getCaseType cj0 with
    | error e => simp [deserializeSuite, hty] at h
    | ok ty =>
      cases hlk : cm.lookup ty with
      | none => simp [deserializeSuite, hty, hlk] at h
      | some v =>
        cases hds : v.deser cj0 info with
        | error e => simp [deserializeSuite, hty, hlk, hds] at h
        | ok d =>
          cases hrest : deserializeSuite cm info rest with
          | error e => simp [deserializeSuite, hty, hlk, hds, hrest] at h
          | ok os2 =>
            rcases List.mem_cons.mp hcj with rfl | hmem
            · exact ⟨ty, v, hty, hlk⟩
            · exact ih os2 hrest cj hmem

theorem deserializeLoop_ok_suites (cm : List (String × CaseVariant)) (info : Json) :
    ∀ (sjs : List Json) (t0 t : Test),
      Test.deserializeLoop cm info t0 sjs = Except.ok t →
      ∀ sj ∈ sjs, ∃ cases2 os, sj = Json.arr cases2 ∧
        deserializeSuite cm info cases2 = Except.ok os := by
  intro sjs
  induction sjs with
  | nil =>
    intro t0 t h sj hsj
    simp at hsj
  | cons sj0 rest ih =>
    intro t0 t h sj hsj
    cases sj0 with
    | arr cases2 =>
      cases hds : deserializeSuite cm info cases2 with
      | error e => simp [Test.deserializeLoop, hds] at h
      | ok ns =>
        simp only [Test.deserializeLoop, hds] at h
        rcases List.mem_cons.mp hsj with rfl | hmem
        · exact ⟨cases2, ns, rfl, hds⟩
        · exact ih _ t h sj hmem
    | null => simp [Test.deserializeLoop] at h
    | bool b => simp [Test.deserializeLoop] at h
    | num n => simp [Test.deserializeLoop] at h
    | str s => simp [Test.deserializeLoop] at h
    | obj fs => simp [Test.deserializeLoop] at h

/-- C7: if the `suites` JSON contains a case whose `'type'` tag is absent
from the registry, `Test.deserialize` never returns a Test; and when that
case is the first one processed, the surfaced failure is exactly the
registry key-lookup error (`KeyError`), propagated to the caller rather
than recovered. -/
theorem deserialize_unknown_type_fails (ref : Nat) (fields : List (String × Json))
    (info : Json) (cm : List (String × CaseVariant)) (suitesJ : List Json)
    (hsu : (fields.lookup "suites").getD (Json.arr []) = Json.arr suitesJ) :
    (∀ (cases2 : List Json) (cj : Json) (ty : String),
      Json.arr cases2 ∈ suitesJ → cj ∈ cases2 → getCaseType cj = Except.ok ty →
      cm.lookup ty = none →
      ∀ t, Test.deserialize ref (Json.obj fields) info cm ≠ Except.ok t) ∧
    (∀ (cj : Json) (ty : String) (restCases restSuites : List Json) (noteS : String),
      (fields.lookup "note").getD (Json.str "") = Json.str noteS →
      suitesJ = Json.arr (cj :: restCases) :: restSuites →
      getCaseType cj = Except.ok ty → cm.lookup ty = none →
      Test.deserialize ref (Json.obj fields) info cm = Except.error (keyErr ty)) := by
  constructor
  · intro cases2 cj ty hmem hcj hty hlk t hok
    unfold Test.deserialize at hok
    simp only [testFields?] at hok
    cases hn : noteStr? ((fields.lookup "note").getD (Json.str "")) with
    | error e => simp [hn] at hok
    | ok noteS =>
      simp only [hn] at hok
      rw [hsu] at hok
      simp only [suitesList?] at hok
      rcases deserializeLoop_ok_suites cm info suitesJ _ t hok (Json.arr cases2) hmem
        with ⟨cases2', os, heq, hdso⟩
      have hce : cases2' = cases2 := by
        injection heq with h2
        exact h2.symm
      subst hce
      rcases deserializeSuite_ok_resolves cm info cases2' os hdso cj hcj
        with ⟨ty2, v2, hty2, hlk2⟩
      rw [hty] at hty2
      injection hty2 with h3
      subst h3
      rw [hlk] at hlk2
      exact Option.noConfusion hlk2
  · intro cj ty restCases restSuites noteS hnote hshape hty hlk
    unfold Test.deserialize
    simp only [testFields?]
    rw [hnote]
    simp only [noteStr?]
    rw [hsu, hshape]
    simp only [suitesList?]
    simp only [Test.deserializeLoop, deserializeSuite, hty, hlk]

def badCaseJson : Json := Json.obj [("type", Json.str "zz")]

def badFields : List (String × Json) :=
  [("suites", Json.arr [Json.arr [badCaseJson]])]

theorem deserialize_unknown_type_fails_witness :
    (getCaseType badCaseJson = Except.ok "zz" ∧
      ([] : List (String × CaseVariant)).lookup "zz" = none) ∧
    Test.deserialize 0 (Json.obj badFields) Json.null [] =
      Except.error (keyErr "zz") :=
  ⟨⟨rfl, rfl⟩,
   (deserialize_unknown_type_fails 0 badFields Json.null [] [Json.arr [badCaseJson]]
      rfl).2 badCaseJson "zz" [] [] "" rfl rfl rfl rfl⟩

/-! ### C2: serialize/deserialize round-trip -/

theorem isNull_eq_true_iff (j : Json) : j.isNull = true ↔ j = Json.null := by
  cases j <;> simp [Json.isNull]

theorem serializeFields_lookup_names (t : Test) :
    t.serializeFields.lookup "names" = some t.names := by
  unfold Test.serializeFields
  by_cases h1 : 0 < t.count_cases <;> by_cases h2 : t._points.isNull <;>
    by_cases h3 : t.note = "" <;> simp [h1, h2, h3, List.lookup]

theorem serializeFields_lookup_suites (t : Test) (h : 0 < t.count_cases) :
    t.serializeFields.lookup "suites" =
      some (Json.arr (t.suites.map (fun s => Json.arr (s.map CaseObj.serialize)))) := by
  unfold Test.serializeFields
  by_cases h2 : t._points.isNull <;> by_cases h3 : t.note = "" <;>
    simp [h, h2, h3, List.lookup]

theorem serializeFields_points_getD (t : Test) :
    (t.serializeFields.lookup "points").getD Json.null = t._points := by
  by_cases h2 : t._points.isNull
  · have h2' : t._points = Json.null := (isNull_eq_true_iff t._points).mp h2
    unfold Test.serializeFields
    by_cases h1 : 0 < t.count_cases <;> by_cases h3 : t.note = "" <;>
      simp [h1, h2, h3, h2', List.lookup, Json.isNull]
  · unfold Test.serializeFields
    by_cases h1 : 0 < t.count_cases <;> by_cases h3 : t.note = "" <;>
      simp [h1, h2, h3, List.lookup]

theorem serializeFields_note_getD (t : Test) :
    (t.serializeFields.lookup "note").getD (Json.str "") =
      Json.str (if t.note = "" then "" else t.note) := by
  unfold Test.serializeFields
  by_cases h1 : 0 < t.count_cases <;> by_cases h2 : t._points.isNull <;>
    by_cases h3 : t.note = "" <;> simp [h1, h2, h3, List.lookup]

theorem names_norm_idem (j : Json) :
    (if (if j.truthy then j else Json.arr []).truthy
      then (if j.truthy then j else Json.arr []) else Json.arr []) =
    (if j.truthy then j else Json.arr []) := by
  by_cases h : j.truthy
  · simp only [if_pos h]
  · simp only [if_neg h]
    exact ite_self _

/-- C2: a Test holding one non-empty suite of one TestCase round-trips
through `serialize`/`deserialize`/`serialize`, for any registry that maps
the case's emitted `'type'` tag to its variant, provided the variant's own
serialize/deserialize are mutually inverse: `deser` undoes `ser` up to the
back-references (which `deserialize` re-establishes via `add_suite`) and
`ser` does not depend on the back-references. -/
theorem serialize_deserialize_roundtrip
    (refA refB : Nat) (names pointsJ info : Json) (note cache : String)
    (c : TestCase) (v : CaseVariant) (T : String)
    (cm : List (String × CaseVariant))
    (hreg : cm.lookup T = some v)
    (ht : getCaseType (v.ser c) = Except.ok T)
    (hinv : v.deser (v.ser c) info = Except.ok (clearRefs c))
    (hser : ∀ r n, v.ser (setCaseRefs r n c) = v.ser c) :
    ∃ t', Test.deserialize refB
        ((Test.init refA names [[⟨c, v⟩]] pointsJ note cache).serialize) info cm
        = Except.ok t' ∧
      t'.serialize = (Test.init refA names [[⟨c, v⟩]] pointsJ note cache).serialize := by
  set t := Test.init refA names [[⟨c, v⟩]] pointsJ note cache with ht_def
  have hpos : 0 < t.count_cases := Nat.one_pos
  have hsj : Json.arr (t.suites.map (fun s => Json.arr (s.map CaseObj.serialize)))
      = Json.arr [Json.arr [v.ser c]] := by
    rw [ht_def]
    rfl
  have hstep : Test.deserialize refB (Test.serialize t) info cm =
      Except.ok ((Test.init refB t.names [] t._points
        (if t.note = "" then "" else t.note) "").add_suite
        [⟨clearRefs c, v⟩]) := by
    unfold Test.deserialize Test.serialize
    simp only [testFields?]
    rw [serializeFields_note_getD t]
    simp only [noteStr?]
    rw [serializeFields_lookup_suites t hpos]
    simp only [Option.getD_some]
    rw [hsj]
    simp only [suitesList?]
    rw [serializeFields_lookup_names t]
    rw [serializeFields_points_getD t]
    simp only [Option.getD_some]
    simp only [Test.deserializeLoop, deserializeSuite, ht, hreg, hinv]
  refine ⟨_, hstep, ?_⟩
  set t1 := (Test.init refB t.names [] t._points
      (if t.note = "" then "" else t.note) "").add_suite [⟨clearRefs c, v⟩] with ht1
  have e_names : t1.names = t.names := by
    have hn0 : t.names = (if names.truthy then names else Json.arr []) := by
      rw [ht_def]
      rfl
    rw [ht1, add_suite_names, init_names, hn0, names_norm_idem]
  have e_points : t1._points = t._points := by
    rw [ht1, add_suite_points_raw, init_points_raw]
  have e_note : t1.note = t.note := by
    rw [ht1, add_suite_note, init_note]
    by_cases h3 : t.note = ""
    · rw [if_pos h3, h3]
      exact dedent_empty
    · rw [if_neg h3]
      have hdn : t.note = dedent note := by rw [ht_def]; rfl
      rw [hdn, dedent_idem]
  have e_suites_json : t1.suites.map (fun s => Json.arr (s.map CaseObj.serialize))
      = t.suites.map (fun s => Json.arr (s.map CaseObj.serialize)) := by
    have h1 : t1.suites = [[(⟨setCaseRefs refB 0 c, v⟩ : CaseObj)]] := by
      rw [ht1]
      rfl
    have h2 : t.suites = [[(⟨c, v⟩ : CaseObj)]] := by
      rw [ht_def]
      rfl
    rw [h1, h2]
    simp only [List.map_cons, List.map_nil, CaseObj.serialize]
    rw [hser refB 0]
  have e_cc1 : t1.count_cases = 1 := by
    rw [ht1]
    rfl
  have e_cc : t.count_cases = 1 := by
    rw [ht_def]
    rfl
  unfold Test.serialize Test.serializeFields
  rw [e_names, e_points, e_note, e_suites_json, e_cc1, e_cc]

/-- A concrete variant whose serialize/deserialize are mutually inverse:
it serializes its tag and the case input, and deserializes them back. -/
def rtVariant : CaseVariant :=
  ⟨"w",
   fun d => Json.obj [("type", Json.str "w"), ("in", Json.str d.input_str)],
   fun j _ => Except.ok ⟨(match j.get "in" with
       | some (Json.str s) => s
       | _ => ""), [], none, none, none, Json.null⟩⟩

def rtCase : TestCase := ⟨"hi", [], none, none, none, Json.null⟩

theorem serialize_deserialize_roundtrip_witness :
    ∃ t', Test.deserialize 1
        ((Test.init 0 (Json.arr [Json.str "q"]) [[⟨rtCase, rtVariant⟩]]
          (Json.num 3) "memo" "").serialize) Json.null [("w", rtVariant)]
        = Except.ok t' ∧
      t'.serialize = (Test.init 0 (Json.arr [Json.str "q"]) [[⟨rtCase, rtVariant⟩]]
          (Json.num 3) "memo" "").serialize :=
  serialize_deserialize_roundtrip 0 1 (Json.arr [Json.str "q"]) (Json.num 3)
    Json.null "memo" "" rtCase rtVariant "w" [("w", rtVariant)] rfl rfl rfl
    (fun _ _ => rfl)
